import Mathlib

/-!
Verification development for the `nestjs-rabbitmq` library, covering the
RPC correlation engine (`src/services/rabbitmq.service.ts`) and the
decentralized service-liveness registry
(`src/services/service-discovery.service.ts`).

Machine integers (millisecond timestamps, ports) are modelled as `Int`;
JavaScript `Map` objects are modelled as association lists with unique
keys; promises are modelled by an explicit first-writer-wins settlement
state.
-/

namespace NestRabbitMQ

/-! ## JSON collaborator

Modelled from the spec: the serialization format collaborator
("JSON assumed, with raw-bytes/string fallback").  `JSON.stringify` /
`JSON.parse` are runtime built-ins, not repository code; they are modelled
here for JSON documents whose numbers are integer numerals and whose
string escapes are the common single-character ones (no `\u` escapes).
-/

inductive Json where
  | null : Json
  | bool (b : Bool) : Json
  | num (n : Int) : Json
  | str (s : String) : Json
  | arr (elems : List Json) : Json
  | obj (fields : List (String × Json)) : Json
deriving Repr

/-- Escape one character the way `JSON.stringify` renders it inside a
string literal. -/
def escapeChar (c : Char) : List Char :=
  if c = '"' then ['\\', '"']
  else if c = '\\' then ['\\', '\\']
  else if c = '\n' then ['\\', 'n']
  else if c = '\t' then ['\\', 't']
  else if c = '\r' then ['\\', 'r']
  else [c]

/-- Render a string as a quoted JSON string literal. -/
def quoteString (s : String) : String :=
  "\"" ++ String.mk ((s.data.map escapeChar).flatten) ++ "\""

/-- Fuel-indexed rendering of a JSON value (`JSON.stringify`).  The fuel
only bounds the nesting depth of the recursion; `Json.stringify` below
supplies enough fuel for any value. -/
def stringifyFuel : Nat → Json → String
  | 0, _ => ""
  | _ + 1, .null => "null"
  | _ + 1, .bool true => "true"
  | _ + 1, .bool false => "false"
  | _ + 1, .num n => toString n
  | _ + 1, .str s => quoteString s
  | fuel + 1, .arr elems =>
      "[" ++ String.intercalate "," (elems.map (stringifyFuel fuel)) ++ "]"
  | fuel + 1, .obj fields =>
      "\x7b" ++ String.intercalate ","
        (fields.map (fun kv => quoteString kv.1 ++ ":" ++ stringifyFuel fuel kv.2)) ++ "\x7d"

mutual

/-- Nesting depth of a JSON value, used as stringify fuel. -/
def Json.depth : Json → Nat
  | .null => 1
  | .bool _ => 1
  | .num _ => 1
  | .str _ => 1
  | .arr elems => 1 + depthElems elems
  | .obj fields => 1 + depthFields fields

/-- Maximum depth over array elements. -/
def depthElems : List Json → Nat
  | [] => 0
  | e :: es => max (Json.depth e) (depthElems es)

/-- Maximum depth over object field values. -/
def depthFields : List (String × Json) → Nat
  | [] => 0
  | kv :: fs => max (Json.depth kv.2) (depthFields fs)

end

/-- Model of `JSON.stringify`. -/
def Json.stringify (v : Json) : String :=
  stringifyFuel v.depth v

/-- Skip JSON whitespace. -/
def skipWs : List Char → List Char
  | c :: cs => if c = ' ' ∨ c = '\n' ∨ c = '\t' ∨ c = '\r' then skipWs cs else c :: cs
  | [] => []

/-- Translate a JSON escape character (the character after a backslash). -/
def unescapeChar (c : Char) : Option Char :=
  if c = '"' then some '"'
  else if c = '\\' then some '\\'
  else if c = '/' then some '/'
  else if c = 'n' then some '\n'
  else if c = 't' then some '\t'
  else if c = 'r' then some '\r'
  else none

/-- Parse the body of a JSON string literal (after the opening quote),
returning the decoded characters and the input after the closing quote. -/
def parseStringBody : Nat → List Char → Option (List Char × List Char)
  | 0, _ => none
  | _ + 1, [] => none
  | fuel + 1, c :: cs =>
    if c = '"' then some ([], cs)
    else if c = '\\' then
      match cs with
      | [] => none
      | e :: cs' =>
        match unescapeChar e with
        | none => none
        | some d =>
          match parseStringBody fuel cs' with
          | none => none
          | some (body, rest) => some (d :: body, rest)
    else
      match parseStringBody fuel cs with
      | none => none
      | some (body, rest) => some (c :: body, rest)

/-- Parse a run of decimal digits into a natural number. -/
def parseDigits (cs : List Char) : Option (Nat × List Char) :=
  let ds := cs.takeWhile Char.isDigit
  if ds.isEmpty then none
  else some (ds.foldl (fun acc c => 10 * acc + (c.toNat - 48)) 0, cs.dropWhile Char.isDigit)

mutual

/-- Recursive-descent parser for one JSON value (integer numerals only). -/
def parseValue : Nat → List Char → Option (Json × List Char)
  | 0, _ => none
  | fuel + 1, cs =>
    match skipWs cs with
    | [] => none
    | 'n' :: 'u' :: 'l' :: 'l' :: rest => some (.null, rest)
    | 't' :: 'r' :: 'u' :: 'e' :: rest => some (.bool true, rest)
    | 'f' :: 'a' :: 'l' :: 's' :: 'e' :: rest => some (.bool false, rest)
    | '"' :: rest =>
      match parseStringBody (fuel + 1) rest with
      | none => none
      | some (body, rest') => some (.str (String.mk body), rest')
    | '[' :: rest =>
      (match skipWs rest with
       | ']' :: rest' => some (.arr [], rest')
       | _ => match parseElems fuel rest with
              | none => none
              | some (elems, rest') => some (.arr elems, rest'))
    | '{' :: rest =>
      (match skipWs rest with
       | '\x7d' :: rest' => some (.obj [], rest')
       | _ => match parseFields fuel rest with
              | none => none
              | some (fields, rest') => some (.obj fields, rest'))
    | '-' :: rest =>
      (match parseDigits rest with
       | none => none
       | some (n, rest') => some (.num (-(n : Int)), rest'))
    | c :: rest =>
      if c.isDigit then
        match parseDigits (c :: rest) with
        | none => none
        | some (n, rest') => some (.num (n : Int), rest')
      else none

/-- Parse the comma-separated elements of a JSON array, up to `]`. -/
def parseElems : Nat → List Char → Option (List Json × List Char)
  | 0, _ => none
  | fuel + 1, cs =>
    match parseValue fuel cs with
    | none => none
    | some (v, rest) =>
      match skipWs rest with
      | ',' :: rest' =>
        (match parseElems fuel rest' with
         | none => none
         | some (vs, rest'') => some (v :: vs, rest''))
      | ']' :: rest' => some ([v], rest')
      | _ => none

/-- Parse the comma-separated `"key": value` fields of a JSON object. -/
def parseFields : Nat → List Char → Option (List (String × Json) × List Char)
  | 0, _ => none
  | fuel + 1, cs =>
    match skipWs cs with
    | '"' :: rest =>
      (match parseStringBody (fuel + 1) rest with
       | none => none
       | some (key, rest') =>
         match skipWs rest' with
         | ':' :: rest'' =>
           (match parseValue fuel rest'' with
            | none => none
            | some (v, rest3) =>
              match skipWs rest3 with
              | ',' :: rest4 =>
                (match parseFields fuel rest4 with
                 | none => none
                 | some (fs, rest5) => some ((String.mk key, v) :: fs, rest5))
              | '\x7d' :: rest4 => some ([(String.mk key, v)], rest4)
              | _ => none)
         | _ => none)
    | _ => none

end

/-- Model of `JSON.parse`: parse a complete JSON document; `none` models
the `SyntaxError` thrown on malformed input. -/
def Json.parse (s : String) : Option Json :=
  match parseValue (2 * s.data.length + 4) s.data with
  | some (v, rest) => if skipWs rest = [] then some v else none
  | none => none

/-! ## Message serialization (`rabbitmq.service.ts`)

A JavaScript value passed through the messaging layer is either a `Buffer`
(modelled as its byte string) or an ordinary value (modelled as `Json`; a
JavaScript string is `Json.str`).  Buffers and serialized payloads are
modelled as `String`; `buffer.toString()` is the identity under this
representation.
-/

inductive JsValue where
  | buffer (bytes : String) : JsValue
  | json (v : Json) : JsValue
deriving Repr

/-- Embeds `RabbitMQService.serializeMessage` (rabbitmq.service.ts:226-236):
a `Buffer` passes through, a string becomes its bytes, anything else is
`JSON.stringify`ed. -/
def serializeMessage : JsValue → String
  | .buffer bytes => bytes
  | .json (.str s) => s
  | .json v => Json.stringify v

/-- Embeds `RabbitMQService.deserializeMessage` (rabbitmq.service.ts:208-216):
try `JSON.parse`, fall back to the raw string when parsing throws. -/
def deserializeMessage (buffer : String) : JsValue :=
  match Json.parse buffer with
  | some v => .json v
  | none => .json (.str buffer)

/-! ## RPC correlation engine (`rabbitmq.service.ts`)

`request()` registers a continuation in
`rpcQueues.get('amq.rabbitmq.reply-to')` keyed by a fresh `correlationId`,
starts a deadline timer, and sends the request.  The engine state below
models the keys of that callback map, the set of active deadline timers
(one per in-flight correlation id), and each call's promise.  A JavaScript
promise settles at most once: `resolve`/`reject` on an already-settled
promise is a silent no-op, captured by `PromiseState.settle`.
-/

inductive RpcError where
  | timeoutAfter (ms : Int) : RpcError
  | sendError (message : String) : RpcError
deriving Repr, DecidableEq

inductive PromiseState where
  | pending : PromiseState
  | resolved (value : JsValue) : PromiseState
  | rejected (error : RpcError) : PromiseState
deriving Repr

/-- First writer wins: settling an already-settled promise is a no-op. -/
def PromiseState.settle (p : PromiseState) (outcome : PromiseState) : PromiseState :=
  match p with
  | .pending => outcome
  | _ => p

structure RpcState where
  /-- Keys of the correlation-callback map for the shared reply queue. -/
  callbacks : List String
  /-- Correlation ids whose deadline timer is still armed. -/
  timers : List String
  /-- Settlement state of each call's promise, keyed by correlation id. -/
  promises : String → PromiseState

/-- Embeds steps 2-3 of `request` (rabbitmq.service.ts:436-459): register
the continuation under a fresh `correlationId` and arm the deadline timer. -/
def issueRequest (cid : String) (s : RpcState) : RpcState :=
  { callbacks := if cid ∈ s.callbacks then s.callbacks else s.callbacks ++ [cid]
    timers := if cid ∈ s.timers then s.timers else s.timers ++ [cid]
    promises := s.promises }

/-- Embeds the reply consumer (rabbitmq.service.ts:129-148): on message
arrival look up its `correlationId`; if absent, drop silently; if present,
invoke the continuation (which clears the timer and resolves the promise
with the deserialized content) and delete the map entry. -/
def handleReplyMessage (cid : String) (content : String) (s : RpcState) : RpcState :=
  if cid ∈ s.callbacks then
    { callbacks := s.callbacks.filter (fun c => c ≠ cid)
      timers := s.timers.filter (fun c => c ≠ cid)
      promises := fun c =>
        if c = cid then (s.promises c).settle (.resolved (deserializeMessage content))
        else s.promises c }
  else s

/-- Embeds the deadline-timer callback (rabbitmq.service.ts:441-447): the
timer disarms itself on firing, deletes the correlation entry (a no-op if
already gone) and rejects the promise with a timeout error. -/
def fireTimeout (cid : String) (ms : Int) (s : RpcState) : RpcState :=
  { callbacks := s.callbacks.filter (fun c => c ≠ cid)
    timers := s.timers.filter (fun c => c ≠ cid)
    promises := fun c =>
      if c = cid then (s.promises c).settle (.rejected (.timeoutAfter ms))
      else s.promises c }

/-- Embeds the send-failure handler (rabbitmq.service.ts:470-478): when
`sendToQueue` rejects, clear the deadline timer, delete the correlation
entry, and reject the promise with the send error. -/
def onSendFailure (cid : String) (err : String) (s : RpcState) : RpcState :=
  { callbacks := s.callbacks.filter (fun c => c ≠ cid)
    timers := s.timers.filter (fun c => c ≠ cid)
    promises := fun c =>
      if c = cid then (s.promises c).settle (.rejected (.sendError err))
      else s.promises c }

/-! ## Service discovery data model (`service-discovery.interface.ts`)

Timestamps (`Date`) are modelled as `Int` milliseconds; `Record<string, any>`
metadata is modelled as an association list with string values. -/

inductive ServiceStatus where
  | healthy : ServiceStatus
  | unhealthy : ServiceStatus
  | unknown : ServiceStatus
deriving Repr, DecidableEq

structure ServiceInfo where
  healthCheckEndpoint : Option String
  host : String
  lastHeartbeat : Int
  metadata : Option (List (String × String))
  port : Option Int
  registeredAt : Int
  serviceId : String
  serviceName : String
  status : ServiceStatus
  tags : Option (List String)
  version : String
deriving Repr, DecidableEq

inductive ServiceDiscoveryEventType where
  | SERVICE_DEREGISTERED : ServiceDiscoveryEventType
  | SERVICE_HEALTHY : ServiceDiscoveryEventType
  | SERVICE_HEARTBEAT : ServiceDiscoveryEventType
  | SERVICE_REGISTERED : ServiceDiscoveryEventType
  | SERVICE_UNHEALTHY : ServiceDiscoveryEventType
deriving Repr, DecidableEq

structure ServiceDiscoveryEvent where
  service : ServiceInfo
  timestamp : Int
  type : ServiceDiscoveryEventType
deriving Repr, DecidableEq

structure ServiceFilterOptions where
  metadata : Option (List (String × String))
  serviceName : Option String
  status : Option ServiceStatus
  tags : Option (List String)
  version : Option String
deriving Repr, DecidableEq

/-! ## JavaScript `Map` model

`ServiceDiscoveryService.services` is a `Map<string, ServiceInfo>`,
modelled as an association list in insertion order with unique keys. -/

abbrev ServicesMap := List (String × ServiceInfo)

/-- `Map.get`: the value stored under a key, if any. -/
def mapGet (m : ServicesMap) (k : String) : Option ServiceInfo :=
  (m.find? (fun p => p.1 = k)).map (fun p => p.2)

/-- `Map.set`: overwrite in place when the key is present, otherwise append
(JavaScript maps preserve insertion order). -/
def mapSet (m : ServicesMap) (k : String) (v : ServiceInfo) : ServicesMap :=
  if m.any (fun p => p.1 = k) then
    m.map (fun p => if p.1 = k then (k, v) else p)
  else m ++ [(k, v)]

/-- In-place mutation of the record stored under a key (the TypeScript code
assigns to fields of the object already held by the map). -/
def mapUpdate (m : ServicesMap) (k : String) (v : ServiceInfo) : ServicesMap :=
  m.map (fun p => if p.1 = k then (k, v) else p)

/-- `Map.delete`: remove the entry under a key, if present. -/
def mapDelete (m : ServicesMap) (k : String) : ServicesMap :=
  m.filter (fun p => p.1 ≠ k)

/-- Keys of the map, in order. -/
def mapKeys (m : ServicesMap) : List String :=
  m.map (fun p => p.1)

/-! ## Registry operations (`service-discovery.service.ts`) -/

/-- Embeds `handleServiceEvent` (service-discovery.service.ts:435-468):
drop events whose embedded id equals our own; deregistration deletes;
heartbeat updates `lastHeartbeat` and `status` of an existing record in
place (or inserts the event's record when unseen); registration stores the
event's record; the remaining event types fall through the switch. -/
def handleServiceEvent (selfId : String) (services : ServicesMap)
    (event : ServiceDiscoveryEvent) : ServicesMap :=
  let service := event.service
  if service.serviceId = selfId then services
  else
    match event.type with
    | .SERVICE_DEREGISTERED => mapDelete services service.serviceId
    | .SERVICE_HEARTBEAT =>
      (match mapGet services service.serviceId with
       | some existingService =>
         mapUpdate services service.serviceId
           { existingService with
               lastHeartbeat := service.lastHeartbeat
               status := service.status }
       | none => mapSet services service.serviceId service)
    | .SERVICE_REGISTERED => mapSet services service.serviceId service
    | _ => services

/-- JavaScript `a || b` on an optional number: `undefined` and `0` are
falsy and select the default. -/
def jsOrInt (value : Option Int) (default : Int) : Int :=
  match value with
  | some v => if v = 0 then default else v
  | none => default

/-- Sweep decision for one record, from the body of the `for` loop in
`cleanupDeadServices` (service-discovery.service.ts:387-397). -/
def cleanupStep (timeout now : Int) (entry : String × ServiceInfo) :
    Option (String × ServiceInfo) :=
  let timeSinceLastHeartbeat := now - entry.2.lastHeartbeat
  if timeout < timeSinceLastHeartbeat then none
  else if timeout / 2 < timeSinceLastHeartbeat ∧ entry.2.status = .healthy then
    some (entry.1, { entry.2 with status := .unhealthy })
  else some entry

/-- Embeds `cleanupDeadServices` (service-discovery.service.ts:383-398):
delete records whose heartbeat age exceeds `serviceTimeout` (default
90000), demote still-`healthy` records older than half the timeout. -/
def cleanupDeadServices (serviceTimeout : Option Int) (now : Int)
    (services : ServicesMap) : ServicesMap :=
  let timeout := jsOrInt serviceTimeout 90000
  services.filterMap (cleanupStep timeout now)

/-- Embeds the table mutation of `sendHeartbeat`
(service-discovery.service.ts:501-512): refresh our own record's
`lastHeartbeat` from the local clock and force its status back to
`healthy` (the publish itself is a bus side effect). -/
def sendHeartbeat (selfId : String) (now : Int) (services : ServicesMap) :
    ServicesMap :=
  match mapGet services selfId with
  | none => services
  | some serviceInfo =>
    mapUpdate services selfId
      { serviceInfo with lastHeartbeat := now, status := .healthy }

/-! ## Query surface (`service-discovery.service.ts:119-313`) -/

/-- Embeds `getAllServices`: the map's values in insertion order. -/
def getAllServices (services : ServicesMap) : List ServiceInfo :=
  services.map (fun p => p.2)

/-- First value stored under a key in a string association list
(`object[key]` on a plain object). -/
def lookupMeta (entries : List (String × String)) (key : String) :
    Option String :=
  ((entries.find? (fun p => p.1 = key)).map (fun p => p.2))

/-- Embeds `getServices` (service-discovery.service.ts:281-313): the filter
fields are applied one after the other; `if (filter.serviceName)` and
`if (filter.version)` are JavaScript truthiness tests, so an empty string
is skipped; an empty `tags` array is skipped explicitly; a present
`metadata` object (even an empty one) rejects records without metadata. -/
def getServices (services0 : ServicesMap)
    (filter : Option ServiceFilterOptions) : List ServiceInfo :=
  let services := getAllServices services0
  match filter with
  | none => services
  | some f =>
    let services :=
      match f.serviceName with
      | some n => if n = "" then services
                  else services.filter (fun s => s.serviceName = n)
      | none => services
    let services :=
      match f.version with
      | some ver => if ver = "" then services
                    else services.filter (fun s => s.version = ver)
      | none => services
    let services :=
      match f.status with
      | some st => services.filter (fun s => s.status = st)
      | none => services
    let services :=
      match f.tags with
      | some ts =>
        if 0 < ts.length then
          services.filter (fun s => ts.any (fun t => (s.tags.getD []).contains t))
        else services
      | none => services
    let services :=
      match f.metadata with
      | some md =>
        services.filter (fun s =>
          match s.metadata with
          | none => false
          | some m => md.all (fun kv => lookupMeta m kv.1 = some kv.2))
      | none => services
    services

/-- Embeds `getHealthyServices` (service-discovery.service.ts:170-175). -/
def getHealthyServices (services : ServicesMap) (serviceName : Option String) :
    List ServiceInfo :=
  getServices services (some
    { metadata := none
      serviceName := serviceName
      status := some .healthy
      tags := none
      version := none })

/-! ## Startup pipeline (`service-discovery.service.ts:93-106, 321-338, 484-493`)

The bus calls made during initialization are external; their outcomes are
injected as `Except` values, in program order.  `Except.error` models a
rejected promise propagating out of an `await`. -/

structure BusOutcomes where
  assertExchange : Except String Unit
  assertQueue : Except String Unit
  bindQueue : Except String Unit
  consume : Except String Unit
  publishRegister : Except String Unit

/-- Lifecycle flags and table of the discovery service instance. -/
structure DiscoveryState where
  services : ServicesMap
  isRegistered : Bool
  heartbeatStarted : Bool
  cleanupStarted : Bool
deriving Repr, DecidableEq

/-- Embeds `setupDiscovery` (service-discovery.service.ts:321-338): assert
the exchange, assert and bind the private queue, start consuming; each
failed `await` aborts the rest and propagates. -/
def setupDiscovery (bus : BusOutcomes) : Except String Unit := do
  bus.assertExchange
  bus.assertQueue
  bus.bindQueue
  bus.consume

/-- Embeds `registerService` (service-discovery.service.ts:484-493): publish
the `registered` event, then insert self and set the flag; a failed publish
propagates before any state change. -/
def registerService (selfId : String) (selfInfo : ServiceInfo)
    (bus : BusOutcomes) (st : DiscoveryState) : Except String DiscoveryState :=
  match bus.publishRegister with
  | .error e => .error e
  | .ok _ => .ok { st with
      services := mapSet st.services selfId selfInfo
      isRegistered := true }

/-- Embeds `onModuleInit` (service-discovery.service.ts:93-106).  The whole
pipeline runs inside `try { ... } catch { logger.error(...) }`, so the hook
itself always resolves: the returned `Except` is the hook's own outcome
(always `.ok`), carrying the final state and the logged error, if any. -/
def onModuleInit (enabled : Bool) (selfId : String) (selfInfo : ServiceInfo)
    (bus : BusOutcomes) (st : DiscoveryState) :
    Except String (DiscoveryState × Option String) :=
  if !enabled then .ok (st, none)
  else
    match setupDiscovery bus with
    | .error e => .ok (st, some e)
    | .ok _ =>
      match registerService selfId selfInfo bus st with
      | .error e => .ok (st, some e)
      | .ok st' =>
        .ok ({ st' with heartbeatStarted := true, cleanupStarted := true }, none)

/-! ## Spec-side filter semantics

For comparing `getServices` against the specification's description of
`getByFilter`, two predicate readings are defined.  `claimedMatches`
follows the spec's words literally: every supplied field constrains the
result (name/version/status by equality, tags by any-match, metadata by
all-match).  `amendedMatches` is the reading the code actually implements:
empty strings and empty tag lists are skipped like absent fields, and a
supplied metadata filter requires the record to carry a metadata map. -/

def claimedMatches (f : ServiceFilterOptions) (s : ServiceInfo) : Bool :=
  (match f.serviceName with
   | some n => decide (s.serviceName = n)
   | none => true) &&
  (match f.version with
   | some ver => decide (s.version = ver)
   | none => true) &&
  (match f.status with
   | some st => decide (s.status = st)
   | none => true) &&
  (match f.tags with
   | some ts => ts.any (fun t => (s.tags.getD []).contains t)
   | none => true) &&
  (match f.metadata with
   | some md => md.all (fun kv => decide (lookupMeta (s.metadata.getD []) kv.1 = some kv.2))
   | none => true)

/-- Name constraint as implemented: a supplied non-empty name must match. -/
def matchesName (f : ServiceFilterOptions) (s : ServiceInfo) : Bool :=
  match f.serviceName with
  | some n => if n = "" then true else decide (s.serviceName = n)
  | none => true

/-- Version constraint as implemented. -/
def matchesVersion (f : ServiceFilterOptions) (s : ServiceInfo) : Bool :=
  match f.version with
  | some ver => if ver = "" then true else decide (s.version = ver)
  | none => true

/-- Status constraint as implemented. -/
def matchesStatus (f : ServiceFilterOptions) (s : ServiceInfo) : Bool :=
  match f.status with
  | some st => decide (s.status = st)
  | none => true

/-- Tag constraint as implemented: only a non-empty supplied list filters. -/
def matchesTags (f : ServiceFilterOptions) (s : ServiceInfo) : Bool :=
  match f.tags with
  | some ts =>
    if 0 < ts.length then ts.any (fun t => (s.tags.getD []).contains t)
    else true
  | none => true

/-- Metadata constraint as implemented: a supplied metadata filter (even an
empty one) requires the record to carry a metadata map. -/
def matchesMetadata (f : ServiceFilterOptions) (s : ServiceInfo) : Bool :=
  match f.metadata with
  | some md =>
    (match s.metadata with
     | none => false
     | some m => md.all (fun kv => decide (lookupMeta m kv.1 = some kv.2)))
  | none => true

def amendedMatches (f : ServiceFilterOptions) (s : ServiceInfo) : Bool :=
  matchesName f s && matchesVersion f s && matchesStatus f s &&
    matchesTags f s && matchesMetadata f s

/-- Uniqueness invariant of the registry table: one record per serviceId. -/
abbrev KeysUnique (m : ServicesMap) : Prop :=
  (mapKeys m).Nodup

/-! ## Concrete sample data for counterexamples and witnesses -/

/-- A peer record as stored in the table. -/
def peerRecord : ServiceInfo :=
  { healthCheckEndpoint := none
    host := "host-a"
    lastHeartbeat := 1000
    metadata := some [("region", "us-east-1")]
    port := some 4000
    registeredAt := 900
    serviceId := "p1"
    serviceName := "orders"
    status := .healthy
    tags := some ["api"]
    version := "1.0.0" }

/-- A one-record registry table holding `peerRecord`. -/
def peerTable : ServicesMap := [("p1", peerRecord)]

/-- A heartbeat event for `p1` carrying a status other than `healthy` and
an older timestamp than the stored record. -/
def staleUnknownHeartbeat : ServiceDiscoveryEvent :=
  { service := { peerRecord with lastHeartbeat := 500, status := .unknown }
    timestamp := 500
    type := .SERVICE_HEARTBEAT }

/-- A registration event for `p1` carrying a different service name. -/
def renamingRegistration : ServiceDiscoveryEvent :=
  { service := { peerRecord with serviceName := "billing", lastHeartbeat := 1100 }
    timestamp := 1100
    type := .SERVICE_REGISTERED }

/-- A filter supplying an empty tag list and nothing else. -/
def emptyTagsFilter : ServiceFilterOptions :=
  { metadata := none
    serviceName := none
    status := none
    tags := some []
    version := none }

/-- An engine state with one in-flight call `c1`. -/
def oneCallState : RpcState :=
  { callbacks := ["c1"]
    timers := ["c1"]
    promises := fun _ => .pending }

/-- Bus outcomes where the very first setup call fails. -/
def failingBus : BusOutcomes :=
  { assertExchange := .error "exchange assertion failed"
    assertQueue := .ok ()
    bindQueue := .ok ()
    consume := .ok ()
    publishRegister := .ok () }

/-- Bus outcomes where every call succeeds. -/
def healthyBus : BusOutcomes :=
  { assertExchange := .ok ()
    assertQueue := .ok ()
    bindQueue := .ok ()
    consume := .ok ()
    publishRegister := .ok () }

/-- The discovery state before `onModuleInit` runs. -/
def initialDiscoveryState : DiscoveryState :=
  { services := []
    isRegistered := false
    heartbeatStarted := false
    cleanupStarted := false }

/-- A heartbeat event for `p1` carrying a healthy status but an older
timestamp than the stored record (out-of-order delivery). -/
def olderHeartbeat : ServiceDiscoveryEvent :=
  { service := { peerRecord with lastHeartbeat := 500 }
    timestamp := 500
    type := .SERVICE_HEARTBEAT }

/-- A `service.healthy` status event for `p1`. -/
def healthyStatusEvent : ServiceDiscoveryEvent :=
  { service := peerRecord
    timestamp := 1200
    type := .SERVICE_HEALTHY }

/-- Bus outcomes where only the registration publish fails. -/
def failingPublishBus : BusOutcomes :=
  { assertExchange := .ok ()
    assertQueue := .ok ()
    bindQueue := .ok ()
    consume := .ok ()
    publishRegister := .error "publish failed" }

/-- A JSON object payload used to exercise the round-trip. -/
def sampleObject : Json :=
  .obj [("a", .num 1), ("b", .arr [.str "x", .null])]

/-- Self record used in startup scenarios. -/
def selfRecord : ServiceInfo :=
  { healthCheckEndpoint := none
    host := "localhost"
    lastHeartbeat := 0
    metadata := some []
    port := some 3000
    registeredAt := 0
    serviceId := "self"
    serviceName := "gateway"
    status := .healthy
    tags := some []
    version := "1.0.0" }

/-! ## Helper lemmas -/

theorem filter_ne_not_mem (l : List String) (a : String) :
    a ∉ l.filter (fun c => c ≠ a) := by
  simp [List.mem_filter]

theorem filter_ne_idem (l : List String) (a : String) :
    (l.filter (fun c => c ≠ a)).filter (fun c => c ≠ a)
      = l.filter (fun c => c ≠ a) := by
  rw [List.filter_filter]
  exact List.filter_congr (fun x _ => Bool.and_self _)

theorem rpcState_eq {s t : RpcState}
    (hc : s.callbacks = t.callbacks) (ht : s.timers = t.timers)
    (hp : ∀ c, s.promises c = t.promises c) : s = t := by
  obtain ⟨c1, t1, p1⟩ := s
  obtain ⟨c2, t2, p2⟩ := t
  dsimp at hc ht hp
  subst hc
  subst ht
  have : p1 = p2 := funext hp
  rw [this]

theorem mapGet_cons (a : String × ServiceInfo) (rest : ServicesMap) (k : String) :
    mapGet (a :: rest) k = if a.1 = k then some a.2 else mapGet rest k := by
  by_cases hk : a.1 = k
  · simp [mapGet, List.find?_cons, hk]
  · simp [mapGet, List.find?_cons, hk]

theorem mapUpdate_cons (a : String × ServiceInfo) (rest : ServicesMap)
    (k : String) (v : ServiceInfo) :
    mapUpdate (a :: rest) k v
      = (if a.1 = k then (k, v) else a) :: mapUpdate rest k v := rfl

theorem mapDelete_cons (a : String × ServiceInfo) (rest : ServicesMap) (k : String) :
    mapDelete (a :: rest) k
      = if a.1 = k then mapDelete rest k else a :: mapDelete rest k := by
  by_cases hk : a.1 = k
  · simp [mapDelete, List.filter_cons, hk]
  · simp [mapDelete, List.filter_cons, hk]

theorem mapGet_mapUpdate_self {m : ServicesMap} {k : String} {w : ServiceInfo}
    (v : ServiceInfo) (h : mapGet m k = some w) :
    mapGet (mapUpdate m k v) k = some v := by
  induction m with
  | nil => simp [mapGet] at h
  | cons a rest ih =>
    rw [mapGet_cons] at h
    rw [mapUpdate_cons]
    by_cases hk : a.1 = k
    · rw [if_pos hk, mapGet_cons]
      simp
    · rw [if_neg hk, mapGet_cons, if_neg hk]
      rw [if_neg hk] at h
      exact ih h

theorem mapGet_mapUpdate_ne {m : ServicesMap} {k k' : String}
    (v : ServiceInfo) (h : k' ≠ k) :
    mapGet (mapUpdate m k v) k' = mapGet m k' := by
  induction m with
  | nil => rfl
  | cons a rest ih =>
    rw [mapUpdate_cons, mapGet_cons, mapGet_cons]
    by_cases hk : a.1 = k
    · have hkk : ¬((k : String) = k') := fun hkk => h hkk.symm
      have hak : ¬(a.1 = k') := fun h1 => hkk (hk ▸ h1)
      simp only [if_pos hk, if_neg hkk, if_neg hak]
      exact ih
    · simp only [if_neg hk]
      by_cases hk' : a.1 = k'
      · simp [if_pos hk']
      · simp only [if_neg hk']
        exact ih

theorem mapGet_append_ne {m : ServicesMap} {k k' : String}
    (v : ServiceInfo) (h : k' ≠ k) :
    mapGet (m ++ [(k, v)]) k' = mapGet m k' := by
  induction m with
  | nil =>
    rw [List.nil_append, mapGet_cons, if_neg (fun hkk => h hkk.symm)]
  | cons a rest ih =>
    rw [List.cons_append, mapGet_cons, mapGet_cons]
    by_cases hk' : a.1 = k'
    · rw [if_pos hk', if_pos hk']
    · rw [if_neg hk', if_neg hk']
      exact ih

theorem mapGet_append_self {m : ServicesMap} {k : String}
    (v : ServiceInfo) (h : mapGet m k = none) :
    mapGet (m ++ [(k, v)]) k = some v := by
  induction m with
  | nil =>
    rw [List.nil_append, mapGet_cons]
    simp
  | cons a rest ih =>
    rw [mapGet_cons] at h
    by_cases hk : a.1 = k
    · rw [if_pos hk] at h
      exact absurd h (by simp)
    · rw [if_neg hk] at h
      rw [List.cons_append, mapGet_cons, if_neg hk]
      exact ih h

theorem any_key_isSome {m : ServicesMap} {k : String}
    (h : m.any (fun p => p.1 = k)) : (mapGet m k).isSome := by
  induction m with
  | nil => simp at h
  | cons a rest ih =>
    rw [mapGet_cons]
    by_cases hk : a.1 = k
    · simp [if_pos hk]
    · rw [if_neg hk]
      rw [List.any_cons] at h
      simp only [hk, decide_eq_true_eq, Bool.false_or] at h
      refine ih ?_
      simpa using h

theorem not_any_get_none {m : ServicesMap} {k : String}
    (h : ¬ m.any (fun p => p.1 = k)) : mapGet m k = none := by
  induction m with
  | nil => rfl
  | cons a rest ih =>
    rw [mapGet_cons]
    by_cases hk : a.1 = k
    · exact absurd (by simp [List.any_cons, hk]) h
    · rw [if_neg hk]
      refine ih (fun ha => h ?_)
      simp [List.any_cons, ha]

theorem mapGet_mapSet_self (m : ServicesMap) (k : String) (v : ServiceInfo) :
    mapGet (mapSet m k v) k = some v := by
  unfold mapSet
  by_cases hany : m.any (fun p => p.1 = k)
  · rw [if_pos hany]
    obtain ⟨w, hw⟩ := Option.isSome_iff_exists.mp (any_key_isSome hany)
    exact mapGet_mapUpdate_self v hw
  · rw [if_neg hany]
    exact mapGet_append_self v (not_any_get_none hany)

theorem mapGet_mapSet_ne {m : ServicesMap} {k k' : String}
    (v : ServiceInfo) (h : k' ≠ k) :
    mapGet (mapSet m k v) k' = mapGet m k' := by
  unfold mapSet
  by_cases hany : m.any (fun p => p.1 = k)
  · rw [if_pos hany]
    exact mapGet_mapUpdate_ne v h
  · rw [if_neg hany]
    exact mapGet_append_ne v h

theorem mapGet_mapDelete_self (m : ServicesMap) (k : String) :
    mapGet (mapDelete m k) k = none := by
  induction m with
  | nil => rfl
  | cons a rest ih =>
    rw [mapDelete_cons]
    by_cases hk : a.1 = k
    · rw [if_pos hk]
      exact ih
    · rw [if_neg hk, mapGet_cons, if_neg hk]
      exact ih

theorem mapGet_mapDelete_ne {m : ServicesMap} {k k' : String} (h : k' ≠ k) :
    mapGet (mapDelete m k) k' = mapGet m k' := by
  induction m with
  | nil => rfl
  | cons a rest ih =>
    rw [mapDelete_cons, mapGet_cons]
    by_cases hk : a.1 = k
    · have hak : ¬(a.1 = k') := fun h1 => h (by rw [← h1, hk])
      rw [if_pos hk, if_neg hak]
      exact ih
    · rw [if_neg hk, mapGet_cons]
      by_cases hk' : a.1 = k'
      · rw [if_pos hk', if_pos hk']
      · rw [if_neg hk', if_neg hk']
        exact ih

theorem mapKeys_cons (a : String × ServiceInfo) (rest : ServicesMap) :
    mapKeys (a :: rest) = a.1 :: mapKeys rest := rfl

theorem mapKeys_mapUpdate (m : ServicesMap) (k : String) (v : ServiceInfo) :
    mapKeys (mapUpdate m k v) = mapKeys m := by
  induction m with
  | nil => rfl
  | cons a rest ih =>
    rw [mapUpdate_cons, mapKeys_cons, mapKeys_cons, ih]
    by_cases hk : a.1 = k
    · simp [hk]
    · rw [if_neg hk]

theorem not_mem_keys_of_not_any {m : ServicesMap} {k : String}
    (h : ¬ m.any (fun p => p.1 = k)) : k ∉ mapKeys m := by
  intro hmem
  apply h
  obtain ⟨p, hp, hpk⟩ := List.mem_map.mp hmem
  rw [List.any_eq_true]
  exact ⟨p, hp, by simp [hpk]⟩

theorem get_none_of_not_mem_keys {m : ServicesMap} {k : String}
    (h : k ∉ mapKeys m) : mapGet m k = none := by
  induction m with
  | nil => rfl
  | cons a rest ih =>
    rw [mapKeys_cons, List.mem_cons] at h
    rw [mapGet_cons, if_neg (fun hh => h (Or.inl hh.symm))]
    exact ih (fun hh => h (Or.inr hh))

theorem keysUnique_mapUpdate {m : ServicesMap} (k : String) (v : ServiceInfo)
    (h : KeysUnique m) : KeysUnique (mapUpdate m k v) := by
  unfold KeysUnique
  rw [mapKeys_mapUpdate]
  exact h

theorem keysUnique_mapSet {m : ServicesMap} (k : String) (v : ServiceInfo)
    (h : KeysUnique m) : KeysUnique (mapSet m k v) := by
  unfold mapSet
  by_cases hany : m.any (fun p => p.1 = k)
  · rw [if_pos hany]
    exact keysUnique_mapUpdate k v h
  · rw [if_neg hany]
    unfold KeysUnique at h ⊢
    have hkeys : mapKeys (m ++ [(k, v)]) = mapKeys m ++ [k] := by
      simp [mapKeys]
    rw [hkeys]
    refine List.Nodup.append h (List.nodup_singleton k) ?_
    intro x hx hx'
    rw [List.mem_singleton] at hx'
    exact not_mem_keys_of_not_any hany (hx' ▸ hx)

theorem keysUnique_mapDelete {m : ServicesMap} (k : String)
    (h : KeysUnique m) : KeysUnique (mapDelete m k) := by
  unfold KeysUnique mapKeys at h ⊢
  exact h.sublist ((List.filter_sublist m).map (fun p => p.1))

theorem cleanupStep_key {t now : Int} {e p : String × ServiceInfo}
    (h : cleanupStep t now e = some p) : p.1 = e.1 := by
  simp only [cleanupStep] at h
  split_ifs at h
  · obtain rfl := Option.some.inj h
    rfl
  · obtain rfl := Option.some.inj h
    rfl

theorem mapKeys_filterMap_sublist (t now : Int) (m : ServicesMap) :
    (mapKeys (m.filterMap (cleanupStep t now))).Sublist (mapKeys m) := by
  induction m with
  | nil => simp [mapKeys]
  | cons a rest ih =>
    rw [List.filterMap_cons]
    cases hstep : cleanupStep t now a with
    | none =>
      rw [mapKeys_cons]
      exact ih.trans (List.sublist_cons_self a.1 (mapKeys rest))
    | some p =>
      rw [mapKeys_cons, mapKeys_cons, cleanupStep_key hstep]
      exact ih.cons₂ a.1

theorem keysUnique_cleanup {m : ServicesMap} (t now : Int)
    (h : KeysUnique m) : KeysUnique (m.filterMap (cleanupStep t now)) :=
  h.sublist (mapKeys_filterMap_sublist t now m)

theorem mapGet_filterMap_cleanup {m : ServicesMap} (hu : KeysUnique m)
    (t now : Int) (k : String) :
    mapGet (m.filterMap (cleanupStep t now)) k
      = (mapGet m k).bind (fun s => (cleanupStep t now (k, s)).map (fun p => p.2)) := by
  induction m with
  | nil => rfl
  | cons a rest ih =>
    obtain ⟨k0, v0⟩ := a
    rw [KeysUnique, mapKeys_cons, List.nodup_cons] at hu
    obtain ⟨hnotin, hu'⟩ := hu
    rw [List.filterMap_cons]
    by_cases hk : k0 = k
    · subst hk
      rw [mapGet_cons, if_pos rfl]
      cases hstep : cleanupStep t now (k0, v0) with
      | none =>
        have hsub := (mapKeys_filterMap_sublist t now rest).subset
        have hnone : mapGet (List.filterMap (cleanupStep t now) rest) k0 = none :=
          get_none_of_not_mem_keys (fun hh => hnotin (hsub hh))
        simp [hstep, hnone]
      | some p =>
        obtain ⟨p1, p2⟩ := p
        have hpk : p1 = k0 := cleanupStep_key hstep
        simp [hstep, mapGet_cons, hpk]
    · rw [mapGet_cons, if_neg hk]
      cases hstep : cleanupStep t now (k0, v0) with
      | none => exact ih hu'
      | some p =>
        obtain ⟨p1, p2⟩ := p
        have hpk : p1 = k0 := cleanupStep_key hstep
        dsimp only
        rw [mapGet_cons, if_neg (fun hh => hk (hpk.symm.trans hh))]
        exact ih hu'

theorem filter_chain {α : Type} (p q : α → Bool) (l : List α) :
    (l.filter p).filter q = l.filter (fun a => p a && q a) := by
  rw [List.filter_filter]
  exact List.filter_congr (fun x _ => Bool.and_comm _ _)

theorem handleReply_not_mem {cid content : String} {t : RpcState}
    (h : cid ∉ t.callbacks) : handleReplyMessage cid content t = t := by
  simp only [handleReplyMessage, if_neg h]

/-! ## Claim theorems -/

/-- C1: an in-flight RPC call's pending entry is resolved exactly once.
Whichever of reply-arrival and timeout-expiry is applied first removes the
correlation entry and settles the promise; applying the other afterwards
leaves the state exactly as it was (the handlers are total functions, so
neither throws), and a reply whose correlation id is not in the table
changes nothing. -/
theorem rpc_call_resolved_exactly_once
    (s : RpcState) (cid unknownCid content content2 : String) (ms ms2 : Int)
    (hmem : cid ∈ s.callbacks) (hpend : s.promises cid = .pending)
    (hunknown : unknownCid ∉ s.callbacks) :
    ((handleReplyMessage cid content s).promises cid
        = .resolved (deserializeMessage content) ∧
      cid ∉ (handleReplyMessage cid content s).callbacks ∧
      fireTimeout cid ms (handleReplyMessage cid content s)
        = handleReplyMessage cid content s ∧
      handleReplyMessage cid content2 (handleReplyMessage cid content s)
        = handleReplyMessage cid content s) ∧
    ((fireTimeout cid ms s).promises cid = .rejected (.timeoutAfter ms) ∧
      cid ∉ (fireTimeout cid ms s).callbacks ∧
      handleReplyMessage cid content (fireTimeout cid ms s)
        = fireTimeout cid ms s ∧
      fireTimeout cid ms2 (fireTimeout cid ms s) = fireTimeout cid ms s) ∧
    handleReplyMessage unknownCid content s = s := by
  have hs1 : handleReplyMessage cid content s
      = { callbacks := s.callbacks.filter (fun c => c ≠ cid)
          timers := s.timers.filter (fun c => c ≠ cid)
          promises := fun c =>
            if c = cid then
              (s.promises c).settle (.resolved (deserializeMessage content))
            else s.promises c } := by
    simp only [handleReplyMessage, if_pos hmem]
  have hres : (handleReplyMessage cid content s).promises cid
      = .resolved (deserializeMessage content) := by
    rw [hs1]
    simp [hpend, PromiseState.settle]
  have hnot1 : cid ∉ (handleReplyMessage cid content s).callbacks := by
    rw [hs1]
    exact filter_ne_not_mem _ _
  have hrej : (fireTimeout cid ms s).promises cid = .rejected (.timeoutAfter ms) := by
    simp [fireTimeout, hpend, PromiseState.settle]
  have hnot2 : cid ∉ (fireTimeout cid ms s).callbacks := filter_ne_not_mem _ _
  refine ⟨⟨hres, hnot1, ?_, ?_⟩, ⟨hrej, hnot2, ?_, ?_⟩, ?_⟩
  · rw [hs1]
    refine rpcState_eq (filter_ne_idem _ _) (filter_ne_idem _ _) (fun c => ?_)
    by_cases hc : c = cid
    · subst hc
      simp [fireTimeout, hpend, PromiseState.settle]
    · simp [fireTimeout, hc]
  · exact handleReply_not_mem hnot1
  · exact handleReply_not_mem hnot2
  · refine rpcState_eq (filter_ne_idem _ _) (filter_ne_idem _ _) (fun c => ?_)
    by_cases hc : c = cid
    · subst hc
      simp [fireTimeout, hpend, PromiseState.settle]
    · simp [fireTimeout, hc]
  · exact handleReply_not_mem hunknown

/-- Witness for C1 at a concrete one-call engine state. -/
theorem rpc_call_resolved_exactly_once_witness :
    ("c1" ∈ oneCallState.callbacks ∧ oneCallState.promises "c1" = .pending ∧
      "c2" ∉ oneCallState.callbacks) ∧
    (((handleReplyMessage "c1" "{}" oneCallState).promises "c1"
        = .resolved (deserializeMessage "{}") ∧
      "c1" ∉ (handleReplyMessage "c1" "{}" oneCallState).callbacks ∧
      fireTimeout "c1" 30000 (handleReplyMessage "c1" "{}" oneCallState)
        = handleReplyMessage "c1" "{}" oneCallState ∧
      handleReplyMessage "c1" "7" (handleReplyMessage "c1" "{}" oneCallState)
        = handleReplyMessage "c1" "{}" oneCallState) ∧
    ((fireTimeout "c1" 30000 oneCallState).promises "c1"
        = .rejected (.timeoutAfter 30000) ∧
      "c1" ∉ (fireTimeout "c1" 30000 oneCallState).callbacks ∧
      handleReplyMessage "c1" "{}" (fireTimeout "c1" 30000 oneCallState)
        = fireTimeout "c1" 30000 oneCallState ∧
      fireTimeout "c1" 5000 (fireTimeout "c1" 30000 oneCallState)
        = fireTimeout "c1" 30000 oneCallState) ∧
    handleReplyMessage "c2" "{}" oneCallState = oneCallState) :=
  ⟨⟨by decide, rfl, by decide⟩,
    rpc_call_resolved_exactly_once oneCallState "c1" "c2" "{}" "7" 30000 5000
      (by decide) rfl (by decide)⟩

/-- C2: when the send of a request fails, the failure handler removes the
pending correlation entry and cancels the deadline timer in the same
synchronous step that rejects the call's promise with the send error, so
no stale entry remains when the error reaches the caller; other calls'
promises are untouched. -/
theorem rpc_send_failure_cleans_up
    (s : RpcState) (cid err : String) (hpend : s.promises cid = .pending) :
    cid ∉ (onSendFailure cid err s).callbacks ∧
    cid ∉ (onSendFailure cid err s).timers ∧
    (onSendFailure cid err s).promises cid = .rejected (.sendError err) ∧
    (∀ c, c ≠ cid → (onSendFailure cid err s).promises c = s.promises c) := by
  refine ⟨filter_ne_not_mem _ _, filter_ne_not_mem _ _, ?_, fun c hc => ?_⟩
  · simp [onSendFailure, hpend, PromiseState.settle]
  · simp [onSendFailure, hc]

/-- Witness for C2 at a concrete one-call engine state. -/
theorem rpc_send_failure_cleans_up_witness :
    oneCallState.promises "c1" = .pending ∧
    ("c1" ∉ (onSendFailure "c1" "connection refused" oneCallState).callbacks ∧
     "c1" ∉ (onSendFailure "c1" "connection refused" oneCallState).timers ∧
     (onSendFailure "c1" "connection refused" oneCallState).promises "c1"
        = .rejected (.sendError "connection refused") ∧
     (∀ c, c ≠ "c1" →
        (onSendFailure "c1" "connection refused" oneCallState).promises c
          = oneCallState.promises c)) :=
  ⟨rfl, rpc_send_failure_cleans_up oneCallState "c1" "connection refused" rfl⟩

/-- C3 counterexample: the claim fails for string payloads that are
themselves valid JSON.  A replier that publishes the string `"123"` causes
the requester's call to resolve with the number `123`, not with the
original string, because `deserializeMessage` tries `JSON.parse` first. -/
theorem string_payload_not_returned_verbatim :
    (handleReplyMessage "c1" (serializeMessage (.json (.str "123")))
        oneCallState).promises "c1"
      = .resolved (.json (.num 123)) ∧
    PromiseState.resolved (JsValue.json (.num 123))
      ≠ PromiseState.resolved (JsValue.json (.str "123")) := by
  constructor
  · rfl
  · intro h
    simp only [PromiseState.resolved.injEq, JsValue.json.injEq] at h
    exact Json.noConfusion h

/-- C3 (amended): the value a call resolves with is always the
deserialization of the serialized reply payload.  This equals the original
payload for string payloads that are not parseable as JSON, and for
non-string JSON payloads on which parse inverts stringify; a string
payload that is itself valid JSON instead resolves to its parse. -/
theorem request_resolves_with_deserialized_payload
    (s : RpcState) (cid : String)
    (hmem : cid ∈ s.callbacks) (hpend : s.promises cid = .pending) :
    (∀ str : String, Json.parse str = none →
      (handleReplyMessage cid (serializeMessage (.json (.str str))) s).promises cid
        = .resolved (.json (.str str))) ∧
    (∀ v : Json, (∀ str, v ≠ .str str) → Json.parse (Json.stringify v) = some v →
      (handleReplyMessage cid (serializeMessage (.json v)) s).promises cid
        = .resolved (.json v)) := by
  constructor
  · intro str hparse
    have hser : serializeMessage (.json (.str str)) = str := rfl
    rw [hser]
    simp [handleReplyMessage, hmem, hpend, PromiseState.settle,
      deserializeMessage, hparse]
  · intro v hnotstr hround
    have hser : serializeMessage (.json v) = Json.stringify v := by
      cases v with
      | str s2 => exact absurd rfl (hnotstr s2)
      | null => rfl
      | bool b => rfl
      | num n => rfl
      | arr elems => rfl
      | obj fields => rfl
    rw [hser]
    simp [handleReplyMessage, hmem, hpend, PromiseState.settle,
      deserializeMessage, hround]

/-- Witness for the amended C3: a non-JSON string payload and a concrete
object payload both resolve verbatim. -/
theorem request_resolves_with_deserialized_payload_witness :
    ("c1" ∈ oneCallState.callbacks ∧ oneCallState.promises "c1" = .pending ∧
     Json.parse "hello" = none ∧
     Json.parse (Json.stringify sampleObject) = some sampleObject) ∧
    ((handleReplyMessage "c1" (serializeMessage (.json (.str "hello")))
        oneCallState).promises "c1" = .resolved (.json (.str "hello")) ∧
     (handleReplyMessage "c1" (serializeMessage (.json sampleObject))
        oneCallState).promises "c1" = .resolved (.json sampleObject)) :=
  ⟨⟨by decide, rfl, rfl, rfl⟩,
    ⟨(request_resolves_with_deserialized_payload oneCallState "c1"
        (by decide) rfl).1 "hello" rfl,
     (request_resolves_with_deserialized_payload oneCallState "c1"
        (by decide) rfl).2 sampleObject
        (fun str h => Json.noConfusion h) rfl⟩⟩

/-- C4 counterexample: a failing exchange assertion propagates out of
`setupDiscovery`, but `onModuleInit` completes successfully with the error
only logged — the caller of the initialization hook never receives it,
contradicting the claim that setup errors are surfaced. -/
theorem discovery_setup_error_not_propagated :
    setupDiscovery failingBus = .error "exchange assertion failed" ∧
    onModuleInit true "self" selfRecord failingBus initialDiscoveryState
      = .ok (initialDiscoveryState, some "exchange assertion failed") :=
  ⟨rfl, rfl⟩

/-- C4 (amended): a failure in any setup step (or in the registration
publish) aborts the remaining initialization steps — the table is not
touched, the registration flag stays false and neither timer starts — but
the error is caught and logged inside `onModuleInit` rather than
propagated to its caller; only a fully successful run initializes the
registry. -/
theorem discovery_init_errors_caught_and_abort
    (selfId : String) (selfInfo : ServiceInfo) (bus : BusOutcomes)
    (st : DiscoveryState) :
    (∀ e, setupDiscovery bus = .error e →
       onModuleInit true selfId selfInfo bus st = .ok (st, some e)) ∧
    (∀ e, setupDiscovery bus = .ok () → bus.publishRegister = .error e →
       onModuleInit true selfId selfInfo bus st = .ok (st, some e)) ∧
    (setupDiscovery bus = .ok () → bus.publishRegister = .ok () →
       onModuleInit true selfId selfInfo bus st
         = .ok ({ services := mapSet st.services selfId selfInfo
                  isRegistered := true
                  heartbeatStarted := true
                  cleanupStarted := true }, none)) := by
  refine ⟨?_, ?_, ?_⟩
  · intro e he
    simp [onModuleInit, he]
  · intro e hsetup hpub
    simp [onModuleInit, hsetup, registerService, hpub]
  · intro hsetup hpub
    simp [onModuleInit, hsetup, registerService, hpub]

/-- Witness for the amended C4: a failed registration publish is logged
and leaves the state untouched; an all-successful run initializes fully. -/
theorem discovery_init_errors_caught_and_abort_witness :
    (setupDiscovery failingPublishBus = .ok () ∧
     failingPublishBus.publishRegister = .error "publish failed" ∧
     setupDiscovery healthyBus = .ok () ∧
     healthyBus.publishRegister = .ok ()) ∧
    (onModuleInit true "self" selfRecord failingPublishBus initialDiscoveryState
        = .ok (initialDiscoveryState, some "publish failed") ∧
     onModuleInit true "self" selfRecord healthyBus initialDiscoveryState
        = .ok ({ services := mapSet initialDiscoveryState.services "self" selfRecord
                 isRegistered := true
                 heartbeatStarted := true
                 cleanupStarted := true }, none)) :=
  ⟨⟨rfl, rfl, rfl, rfl⟩,
    ⟨(discovery_init_errors_caught_and_abort "self" selfRecord failingPublishBus
        initialDiscoveryState).2.1 "publish failed" rfl rfl,
     (discovery_init_errors_caught_and_abort "self" selfRecord healthyBus
        initialDiscoveryState).2.2 rfl rfl⟩⟩

/-- C5 counterexample: a heartbeat event carrying status `unknown` for an
already-known healthy peer leaves the stored record with status `unknown`,
not `healthy` — the intake copies the event's status field instead of
forcing `healthy`. -/
theorem heartbeat_event_status_not_forced_healthy :
    mapGet (handleServiceEvent "self" peerTable staleUnknownHeartbeat) "p1"
      = some { peerRecord with lastHeartbeat := 500, status := .unknown } ∧
    ServiceStatus.unknown ≠ ServiceStatus.healthy :=
  ⟨by decide, by decide⟩

/-- C5 (amended): a heartbeat event for a known peer overwrites the stored
record's `lastHeartbeat` and `status` with the values carried in the
event.  The status becomes `healthy` only because the sender's heartbeat
routine always stamps its own record `healthy` before publishing, as the
second conjunct shows for the local record. -/
theorem heartbeat_event_copies_status_from_event
    (selfId : String) (tbl : ServicesMap) (ev : ServiceDiscoveryEvent)
    (ex : ServiceInfo)
    (hty : ev.type = .SERVICE_HEARTBEAT)
    (hne : ev.service.serviceId ≠ selfId)
    (hex : mapGet tbl ev.service.serviceId = some ex) :
    mapGet (handleServiceEvent selfId tbl ev) ev.service.serviceId
      = some { ex with lastHeartbeat := ev.service.lastHeartbeat
                       status := ev.service.status } ∧
    (∀ now tbl2 s2, mapGet tbl2 selfId = some s2 →
       mapGet (sendHeartbeat selfId now tbl2) selfId
         = some { s2 with lastHeartbeat := now, status := .healthy }) := by
  constructor
  · simp only [handleServiceEvent, if_neg hne, hty, hex]
    exact mapGet_mapUpdate_self _ hex
  · intro now tbl2 s2 h2
    simp only [sendHeartbeat, h2]
    exact mapGet_mapUpdate_self _ h2

/-- Witness for the amended C5 at a concrete table and event. -/
theorem heartbeat_event_copies_status_from_event_witness :
    (staleUnknownHeartbeat.type = .SERVICE_HEARTBEAT ∧
     staleUnknownHeartbeat.service.serviceId ≠ "self" ∧
     mapGet peerTable staleUnknownHeartbeat.service.serviceId = some peerRecord) ∧
    mapGet (handleServiceEvent "self" peerTable staleUnknownHeartbeat)
        staleUnknownHeartbeat.service.serviceId
      = some { peerRecord with
                 lastHeartbeat := staleUnknownHeartbeat.service.lastHeartbeat
                 status := staleUnknownHeartbeat.service.status } :=
  ⟨⟨rfl, by decide, by decide⟩,
    (heartbeat_event_copies_status_from_event "self" peerTable
      staleUnknownHeartbeat peerRecord rfl (by decide) (by decide)).1⟩

/-- C6 counterexample: a `registered` event for an already-known peer
carrying a different `serviceName` replaces the whole stored record, so a
field other than `lastHeartbeat`/`status` changes — the upsert is not an
in-place two-field update for `registered` events. -/
theorem registered_event_replaces_whole_record :
    mapGet (handleServiceEvent "self" peerTable renamingRegistration) "p1"
      = some { peerRecord with serviceName := "billing", lastHeartbeat := 1100 } ∧
    ({ peerRecord with serviceName := "billing", lastHeartbeat := 1100 }
        : ServiceInfo).serviceName ≠ peerRecord.serviceName :=
  ⟨by decide, by decide⟩

/-- C6 (amended): `heartbeat` events for a known id update only
`lastHeartbeat` and `status` in place, and insert the event's record when
the id is unknown; `registered` events instead store the event's entire
record snapshot (overwriting every field when the id is known); records
under other ids are never affected by either event type. -/
theorem event_intake_upsert_semantics
    (selfId : String) (tbl : ServicesMap) (ev : ServiceDiscoveryEvent)
    (hne : ev.service.serviceId ≠ selfId) :
    (ev.type = .SERVICE_HEARTBEAT →
       (∀ ex, mapGet tbl ev.service.serviceId = some ex →
          mapGet (handleServiceEvent selfId tbl ev) ev.service.serviceId
            = some { ex with lastHeartbeat := ev.service.lastHeartbeat
                             status := ev.service.status }) ∧
       (mapGet tbl ev.service.serviceId = none →
          mapGet (handleServiceEvent selfId tbl ev) ev.service.serviceId
            = some ev.service)) ∧
    (ev.type = .SERVICE_REGISTERED →
       mapGet (handleServiceEvent selfId tbl ev) ev.service.serviceId
         = some ev.service) ∧
    (∀ k, k ≠ ev.service.serviceId →
       (ev.type = .SERVICE_HEARTBEAT ∨ ev.type = .SERVICE_REGISTERED) →
       mapGet (handleServiceEvent selfId tbl ev) k = mapGet tbl k) := by
  refine ⟨fun hty => ⟨fun ex hex => ?_, fun hnone => ?_⟩, fun hty => ?_,
    fun k hk hty => ?_⟩
  · simp only [handleServiceEvent, if_neg hne, hty, hex]
    exact mapGet_mapUpdate_self _ hex
  · simp only [handleServiceEvent, if_neg hne, hty, hnone]
    exact mapGet_mapSet_self _ _ _
  · simp only [handleServiceEvent, if_neg hne, hty]
    exact mapGet_mapSet_self _ _ _
  · rcases hty with hty | hty
    · simp only [handleServiceEvent, if_neg hne, hty]
      cases hex : mapGet tbl ev.service.serviceId with
      | none => exact mapGet_mapSet_ne _ hk
      | some ex => exact mapGet_mapUpdate_ne _ hk
    · simp only [handleServiceEvent, if_neg hne, hty]
      exact mapGet_mapSet_ne _ hk

/-- Witness for the amended C6: the renaming registration replaces the
stored record, and an untouched id keeps its binding. -/
theorem event_intake_upsert_semantics_witness :
    (renamingRegistration.service.serviceId ≠ "self" ∧
     renamingRegistration.type = .SERVICE_REGISTERED ∧
     ("zz" : String) ≠ renamingRegistration.service.serviceId) ∧
    (mapGet (handleServiceEvent "self" peerTable renamingRegistration)
        renamingRegistration.service.serviceId = some renamingRegistration.service ∧
     mapGet (handleServiceEvent "self" peerTable renamingRegistration) "zz"
        = mapGet peerTable "zz") :=
  ⟨⟨by decide, rfl, by decide⟩,
    ⟨(event_intake_upsert_semantics "self" peerTable renamingRegistration
        (by decide)).2.1 rfl,
     (event_intake_upsert_semantics "self" peerTable renamingRegistration
        (by decide)).2.2 "zz" (by decide) (Or.inr rfl)⟩⟩

/-- C7: the sweep deletes a record whose heartbeat age strictly exceeds
the service timeout (default 90000), demotes a still-`healthy` record
whose age strictly exceeds half the timeout (the record stays present),
and leaves every other record unchanged. -/
theorem sweep_semantics
    (tbl : ServicesMap) (tOpt : Option Int) (now : Int)
    (id : String) (s : ServiceInfo)
    (hu : KeysUnique tbl) (hget : mapGet tbl id = some s) :
    (jsOrInt tOpt 90000 < now - s.lastHeartbeat →
       mapGet (cleanupDeadServices tOpt now tbl) id = none) ∧
    (now - s.lastHeartbeat ≤ jsOrInt tOpt 90000 →
     jsOrInt tOpt 90000 / 2 < now - s.lastHeartbeat → s.status = .healthy →
       mapGet (cleanupDeadServices tOpt now tbl) id
         = some { s with status := .unhealthy }) ∧
    (now - s.lastHeartbeat ≤ jsOrInt tOpt 90000 →
     ¬(jsOrInt tOpt 90000 / 2 < now - s.lastHeartbeat ∧ s.status = .healthy) →
       mapGet (cleanupDeadServices tOpt now tbl) id = some s) := by
  have hchar := mapGet_filterMap_cleanup hu (jsOrInt tOpt 90000) now id
  have hcd : cleanupDeadServices tOpt now tbl
      = tbl.filterMap (cleanupStep (jsOrInt tOpt 90000) now) := rfl
  refine ⟨fun hdead => ?_, fun hkeep hhalf hst => ?_, fun hkeep hrest => ?_⟩
  · rw [hcd, hchar, hget]
    simp [cleanupStep, hdead]
  · rw [hcd, hchar, hget]
    simp [cleanupStep, not_lt.mpr hkeep, hhalf, hst]
  · rw [hcd, hchar, hget]
    simp only [cleanupStep, Option.some_bind]
    rw [if_neg (not_lt.mpr hkeep), if_neg hrest]
    rfl

/-- Witness for C7: with the default timeout, an age of 49000 ms demotes
the healthy record `p1` to unhealthy, and an age of 99000 ms deletes it. -/
theorem sweep_semantics_witness :
    (KeysUnique peerTable ∧ mapGet peerTable "p1" = some peerRecord ∧
     (50000 : Int) - peerRecord.lastHeartbeat ≤ jsOrInt none 90000 ∧
     jsOrInt none 90000 / 2 < (50000 : Int) - peerRecord.lastHeartbeat ∧
     peerRecord.status = .healthy ∧
     jsOrInt none 90000 < (100000 : Int) - peerRecord.lastHeartbeat) ∧
    (mapGet (cleanupDeadServices none 50000 peerTable) "p1"
       = some { peerRecord with status := .unhealthy } ∧
     mapGet (cleanupDeadServices none 100000 peerTable) "p1" = none) :=
  ⟨⟨by decide, by decide, by decide, by decide, by decide, by decide⟩,
    ⟨(sweep_semantics peerTable none 50000 "p1" peerRecord (by decide)
        (by decide)).2.1 (by decide) (by decide) rfl,
     (sweep_semantics peerTable none 100000 "p1" peerRecord (by decide)
        (by decide)).1 (by decide)⟩⟩

/-- C8 counterexample: a heartbeat event that arrives out of order — its
embedded `lastHeartbeat` (500) is older than the stored one (1000) —
overwrites the stored value, so `lastHeartbeat` is not monotonically
non-decreasing under event intake. -/
theorem heartbeat_can_decrease_lastHeartbeat :
    (mapGet (handleServiceEvent "self" peerTable olderHeartbeat) "p1").map
        ServiceInfo.lastHeartbeat = some 500 ∧
    peerRecord.lastHeartbeat = 1000 ∧ (500 : Int) < 1000 :=
  ⟨by decide, by decide, by decide⟩

/-- C8 (amended): the table always holds exactly one record per serviceId
— every mutating operation preserves key uniqueness — and the local
record's `lastHeartbeat`, written from the local clock by the heartbeat
routine, does not decrease when the clock does not; but intake of a
`registered`/`heartbeat` event overwrites `lastHeartbeat` with the value
carried in the event, which may be older than the stored one. -/
theorem registry_uniqueness_and_self_monotonicity
    (selfId : String) (tbl : ServicesMap) (ev : ServiceDiscoveryEvent)
    (v : ServiceInfo) (tOpt : Option Int) (now : Int) (hu : KeysUnique tbl) :
    KeysUnique (handleServiceEvent selfId tbl ev) ∧
    KeysUnique (sendHeartbeat selfId now tbl) ∧
    KeysUnique (cleanupDeadServices tOpt now tbl) ∧
    KeysUnique (mapSet tbl selfId v) ∧
    KeysUnique (mapDelete tbl selfId) ∧
    (∀ s, mapGet tbl selfId = some s → s.lastHeartbeat ≤ now →
       (mapGet (sendHeartbeat selfId now tbl) selfId).map
           ServiceInfo.lastHeartbeat = some now) := by
  refine ⟨?_, ?_, keysUnique_cleanup _ _ hu, keysUnique_mapSet _ _ hu,
    keysUnique_mapDelete _ hu, fun s hget _ => ?_⟩
  · unfold handleServiceEvent
    by_cases hs : ev.service.serviceId = selfId
    · rw [if_pos hs]
      exact hu
    · rw [if_neg hs]
      cases ev.type with
      | SERVICE_DEREGISTERED => exact keysUnique_mapDelete _ hu
      | SERVICE_HEARTBEAT =>
        cases hex : mapGet tbl ev.service.serviceId with
        | none => exact keysUnique_mapSet _ _ hu
        | some ex => exact keysUnique_mapUpdate _ _ hu
      | SERVICE_REGISTERED => exact keysUnique_mapSet _ _ hu
      | SERVICE_HEALTHY => exact hu
      | SERVICE_UNHEALTHY => exact hu
  · unfold sendHeartbeat
    cases hget2 : mapGet tbl selfId with
    | none => exact hu
    | some s2 => exact keysUnique_mapUpdate _ _ hu
  · simp only [sendHeartbeat, hget]
    rw [mapGet_mapUpdate_self _ hget]
    rfl

/-- Witness for the amended C8 at a concrete table, event and clock. -/
theorem registry_uniqueness_witness :
    (KeysUnique peerTable ∧ mapGet peerTable "p1" = some peerRecord ∧
     peerRecord.lastHeartbeat ≤ (2000 : Int)) ∧
    (KeysUnique (handleServiceEvent "p1" peerTable olderHeartbeat) ∧
     (mapGet (sendHeartbeat "p1" 2000 peerTable) "p1").map
        ServiceInfo.lastHeartbeat = some 2000) :=
  ⟨⟨by decide, by decide, by decide⟩,
    ⟨(registry_uniqueness_and_self_monotonicity "p1" peerTable olderHeartbeat
        peerRecord none 2000 (by decide)).1,
     (registry_uniqueness_and_self_monotonicity "p1" peerTable olderHeartbeat
        peerRecord none 2000 (by decide)).2.2.2.2.2 peerRecord (by decide)
        (by decide)⟩⟩

/-- C10: `service.healthy` and `service.unhealthy` events — the two event
types the envelope admits but the intake switch does not handle — leave
the registry table entirely unchanged, for every table state. -/
theorem status_only_events_are_noops
    (selfId : String) (tbl : ServicesMap) (ev : ServiceDiscoveryEvent)
    (h : ev.type = .SERVICE_HEALTHY ∨ ev.type = .SERVICE_UNHEALTHY) :
    handleServiceEvent selfId tbl ev = tbl := by
  unfold handleServiceEvent
  by_cases hs : ev.service.serviceId = selfId
  · rw [if_pos hs]
  · rw [if_neg hs]
    rcases h with h | h <;> rw [h]

/-- Witness for C10 at a concrete table and `service.healthy` event. -/
theorem status_only_events_are_noops_witness :
    (healthyStatusEvent.type = .SERVICE_HEALTHY ∨
     healthyStatusEvent.type = .SERVICE_UNHEALTHY) ∧
    handleServiceEvent "self" peerTable healthyStatusEvent = peerTable :=
  ⟨Or.inl rfl,
    status_only_events_are_noops "self" peerTable healthyStatusEvent (Or.inl rfl)⟩

/-- C9 counterexample: a filter supplying `tags: []` imposes no constraint
in the code (the tags stage is skipped for an empty list), but under the
claim's any-match reading no record satisfies an empty tag list, so the
result should be empty.  The code returns the record anyway. -/
theorem empty_tags_filter_returns_all :
    getServices peerTable (some emptyTagsFilter) = [peerRecord] ∧
    (getAllServices peerTable).filter (claimedMatches emptyTagsFilter) = [] :=
  ⟨by decide, by decide⟩

/-- C9 (amended): `getServices` returns exactly the records satisfying
every effective predicate of the filter — name/version/status by equality
when supplied and non-empty, tags by any-match when the supplied list is
non-empty, metadata by all-match additionally requiring the record to
carry a metadata map — and an absent field (or an empty string / empty tag
list) imposes no constraint; with no filter at all, every record is
returned. -/
theorem filter_amendedMatches (f : ServiceFilterOptions) (l : List ServiceInfo) :
    l.filter (amendedMatches f)
      = l.filter (fun s => matchesName f s && matchesVersion f s &&
          matchesStatus f s && matchesTags f s && matchesMetadata f s) := rfl

theorem getServices_matches_amended_semantics
    (tbl : ServicesMap) (f : ServiceFilterOptions) :
    getServices tbl (some f) = (getAllServices tbl).filter (amendedMatches f) ∧
    getServices tbl none = getAllServices tbl := by
  refine ⟨?_, rfl⟩
  rw [filter_amendedMatches]
  obtain ⟨md, nm, st, ts, ver⟩ := f
  rcases nm with _ | n <;> rcases ver with _ | ver1 <;> rcases st with _ | st1 <;>
    rcases ts with _ | ts1 <;> rcases md with _ | md1 <;>
    simp only [getServices, matchesName, matchesVersion,
      matchesStatus, matchesTags, matchesMetadata] <;>
    (try split_ifs) <;>
    simp [*, filter_chain, Bool.and_assoc, Bool.and_comm, Bool.and_left_comm]

end NestRabbitMQ
